import Mathlib

/-!
Verification development for the `typedoc-pkg` export-map resolution and
module-name remapping engine.

The JavaScript sources are shallowly embedded: paths are forward-slash
strings, the file system is an explicit structure listing files,
directories and parsed `package.json` objects, and the process working
directory is threaded as explicit state.  External collaborators
(`upath`, `@typhonjs-utils/file-util`, `glob`, `is-glob`,
`resolve.exports`) are modelled from their documented interfaces on the
fragment this repository exercises.
-/

/-- Character match for the JavaScript regular expressions built by the
naming pass: a pattern character matches itself, and a dot matches any
character. -/
def reCharMatch (p c : Char) : Bool :=
  p = '.' || p = c

/-- Boolean prefix test on character lists. -/
def startsWithL : List Char → List Char → Bool
  | [], _ => true
  | _ :: _, [] => false
  | p :: ps, c :: cs => p = c && startsWithL ps cs

/-- Boolean suffix test on character lists. -/
def endsWithL (pat l : List Char) : Bool :=
  startsWithL pat.reverse l.reverse

/-- Suffix test on strings, used to model the anchored regular
expressions of `validation.js`. -/
def strEndsWith (s pat : String) : Bool :=
  endsWithL pat.data s.data

/-- Split a character list on a separator character; mirrors
`String.prototype.split` with a single-character separator. -/
def chSplit (c : Char) : List Char → List (List Char)
  | [] => [[]]
  | x :: xs =>
    if x = c then [] :: chSplit c xs
    else
      match chSplit c xs with
      | [] => [[x]]
      | h :: t => (x :: h) :: t

/-- Join path segments back with forward slashes (inverse of
`chSplit '/'`). -/
def joinSegs : List (List Char) → List Char
  | [] => []
  | s :: rest =>
    match rest with
    | [] => s
    | _ :: _ => s ++ '/' :: joinSegs rest

/-- Path-segment normalization for a relative path, as performed by
`upath.join` / POSIX `path.normalize`: empty and `.` segments are
dropped and `..` pops the previous segment (leading `..` segments are
kept).  The accumulator holds the processed segments in reverse. -/
def normAuxRel : List (List Char) → List (List Char) → List (List Char)
  | acc, [] => acc.reverse
  | acc, seg :: rest =>
    if seg = [] ∨ seg = ['.'] then normAuxRel acc rest
    else if seg = ['.', '.'] then
      match acc with
      | [] => normAuxRel [['.', '.']] rest
      | top :: t =>
        if top = ['.', '.'] then normAuxRel (seg :: acc) rest
        else normAuxRel t rest
    else normAuxRel (seg :: acc) rest

/-- Path-segment normalization for an absolute path: like `normAuxRel`
but `..` at the root is dropped, as POSIX `path.resolve` does. -/
def normAuxAbs : List (List Char) → List (List Char) → List (List Char)
  | acc, [] => acc.reverse
  | acc, seg :: rest =>
    if seg = [] ∨ seg = ['.'] then normAuxAbs acc rest
    else if seg = ['.', '.'] then
      match acc with
      | [] => normAuxAbs [] rest
      | _ :: t => normAuxAbs t rest
    else normAuxAbs (seg :: acc) rest

/-- Normalize a relative path string; empty results collapse to `"."`
exactly as POSIX `path.normalize` does. -/
def pathNormalizeRel (s : String) : String :=
  match normAuxRel [] (chSplit '/' s.data) with
  | [] => "."
  | segs => ⟨joinSegs segs⟩

/-- Model of `upath.join` restricted to two arguments as used by the
sources: concatenate with a slash and normalize. -/
def pathJoin (a b : String) : String :=
  pathNormalizeRel (a ++ "/" ++ b)

/-- Normalize an absolute path string (leading slash restored after
segment normalization). -/
def resolveAbs (s : String) : String :=
  ⟨'/' :: joinSegs (normAuxAbs [] (chSplit '/' s.data))⟩

/-- Model of `upath.resolve` with the working directory made explicit:
an absolute argument is normalized, a relative one is resolved against
the working directory. -/
def pathResolveCwd (cwd p : String) : String :=
  if startsWithL ['/'] p.data then resolveAbs p
  else resolveAbs (cwd ++ "/" ++ p)

/-- Model of POSIX `path.dirname`: everything before the last slash,
`"."` when there is no slash, `"/"` for a top-level entry. -/
def pathDirname (s : String) : String :=
  let r := s.data.reverse
  if r.contains '/' then
    match (r.dropWhile (fun c => ¬ c = '/')) with
    | [] => "."
    | _ :: rest => if rest.reverse = [] then "/" else ⟨rest.reverse⟩
  else "."

/-- Model of POSIX `path.basename`: everything after the last slash. -/
def pathBasename (s : String) : String :=
  ⟨(s.data.reverse.takeWhile (fun c => ¬ c = '/')).reverse⟩

/-- Longest common prefix of two segment lists. -/
def commonSegs : List (List Char) → List (List Char) → List (List Char)
  | [], _ => []
  | _, [] => []
  | a :: as, b :: bs => if a = b then a :: commonSegs as bs else []

/-- Model of the external `@typhonjs-utils/file-util` `commonPath`: the
longest common path prefix (whole segments) of all given paths. -/
def commonPathM (paths : List String) : String :=
  match paths with
  | [] => ""
  | p :: rest =>
    ⟨joinSegs (rest.foldl (fun acc q => commonSegs acc (chSplit '/' q.data))
        (chSplit '/' p.data))⟩

/-- Drop the longest common segment prefix of two segment lists. -/
def dropCommonSegs : List (List Char) → List (List Char) →
    List (List Char) × List (List Char)
  | [], fsegs => ([], fsegs)
  | bsegs, [] => (bsegs, [])
  | b :: bs, f :: fs =>
    if b = f then dropCommonSegs bs fs else (b :: bs, f :: fs)

/-- Model of the external `@typhonjs-utils/file-util` `getRelativePath`
(like POSIX `path.relative`): remaining base segments become `..` and
the remaining file segments follow. -/
def getRelativePathM (basepath filepath : String) : String :=
  let bf := dropCommonSegs (chSplit '/' basepath.data) (chSplit '/' filepath.data)
  ⟨joinSegs (bf.1.map (fun _ => ['.', '.']) ++ bf.2)⟩

/-- The first segment of a string split on a dot; models the JavaScript
idiom `s.split(".")[0]` applied to relative paths and file names. -/
def takeUntilDot (s : String) : String :=
  ⟨s.data.takeWhile (fun c => ¬ c = '.')⟩

/-- Remove a trailing `/index` if present; models the JavaScript
`replace` with an anchored `/index` regular expression. -/
def stripSlashIndex (s : String) : String :=
  if strEndsWith s "/index" then ⟨s.data.take (s.data.length - 6)⟩ else s

/-- Count the leading dots of a character list. -/
def countDots : List Char → Nat
  | '.' :: rest => countDots rest + 1
  | _ => 0

/-- Remove one leading `dots-then-slash` group, when present. -/
def stripRelOnce (l : List Char) : Option (List Char) :=
  let d := countDots l
  if d = 0 then none
  else
    match l.drop d with
    | '/' :: rest => some rest
    | _ => none

/-- Fuelled driver for `stripLeadingRel`. -/
def stripLeadingRelAux : Nat → List Char → List Char
  | 0, l => l
  | fuel + 1, l =>
    match stripRelOnce l with
    | some l2 => stripLeadingRelAux fuel l2
    | none => l

/-- Model of the JavaScript `replace` removing every leading group of
dots followed by a slash from a wildcard target pattern. -/
def stripLeadingRel (s : String) : String :=
  ⟨stripLeadingRelAux s.data.length s.data⟩

/-- Split a character list at its first `*`, returning the parts before
and after it. -/
def splitFirstStar : List Char → Option (List Char × List Char)
  | [] => none
  | c :: rest =>
    if c = '*' then some ([], rest)
    else (splitFirstStar rest).map (fun ps => (c :: ps.1, ps.2))

/-- Regex-style prefix match where a `.` in the pattern matches any
character. -/
def reMatchPre : List Char → List Char → Bool
  | [], _ => true
  | _ :: _, [] => false
  | p :: ps, c :: cs => reCharMatch p c && reMatchPre ps cs

/-- Greedy capture attempt: try capture lengths from `m` downward until
the suffix pattern matches right after the captured part; mirrors the
backtracking of the greedy `(.*)` group. -/
def capTryDesc (suf rest : List Char) : Nat → Option (List Char)
  | 0 => if reMatchPre suf rest then some [] else none
  | m + 1 =>
    if reMatchPre suf (rest.drop (m + 1)) then some (rest.take (m + 1))
    else capTryDesc suf rest m

/-- One anchored attempt of the pattern `pre(.*)suf` at the start of
`s`. -/
def attemptCap (pre suf s : List Char) : Option (List Char) :=
  if reMatchPre pre s then capTryDesc suf (s.drop pre.length) (s.drop pre.length).length
  else none

/-- Unanchored, leftmost-first search of the pattern `pre(.*)suf` over
`s`, returning the text captured by the greedy group; models
`String.prototype.match` with the regular expression the naming pass
builds. -/
def searchCap (pre suf : List Char) : List Char → Option (List Char)
  | [] => attemptCap pre suf []
  | c :: rest =>
    match attemptCap pre suf (c :: rest) with
    | some cap => some cap
    | none => searchCap pre suf rest

/-- Unanchored search for a literal (dot-wildcard) pattern with no
capture group. -/
def reSearch (pat : List Char) : List Char → Bool
  | [] => reMatchPre pat []
  | c :: rest => reMatchPre pat (c :: rest) || reSearch pat rest

/-- The wildcard capture of the naming pass: the pattern (already
stripped of leading relative segments) has its first `*` replaced by a
capturing group and is matched against `s`.  When the pattern has no
`*`, a successful match leaves the capture group undefined and the
JavaScript substitution coerces it to the string `undefined`. -/
def wildcardCaptureJS (pat s : String) : Option String :=
  match splitFirstStar pat.data with
  | some ps => (searchCap ps.1 ps.2 s.data).map (fun l => ⟨l⟩)
  | none => if reSearch pat.data s.data then some "undefined" else none

/-- Replace every `*` by the capture; models
`String.prototype.replaceAll` with a one-character needle. -/
def replaceStarL (cap : List Char) : List Char → List Char
  | [] => []
  | c :: rest =>
    if c = '*' then cap ++ replaceStarL cap rest
    else c :: replaceStarL cap rest

/-- String wrapper of `replaceStarL`. -/
def replaceStarStr (s cap : String) : String :=
  ⟨replaceStarL cap.data s.data⟩

/-- Model of the `is-glob` test restricted to the `*` wildcard, the only
glob character this repository produces. -/
def isGlobM (s : String) : Bool :=
  s.data.any (fun c => c = '*')

/-- The `regexAllowedFiles` test of `validation.js`: allowed standard
JS / TS source extensions. -/
def regexAllowedFilesTest (s : String) : Bool :=
  strEndsWith s ".js" || strEndsWith s ".mjs" || strEndsWith s ".ts" || strEndsWith s ".mts"

/-- The `regexIsDTSFile` test of `validation.js`: TypeScript declaration
file extensions. -/
def regexIsDTSFileTest (s : String) : Bool :=
  strEndsWith s ".d.ts" || strEndsWith s ".d.mts" || strEndsWith s ".d.cts"

/-- A target value inside a `package.json` `exports` object: a string
path or `null`.  (Nested condition objects do not occur in the inputs
the claims exercise.) -/
inductive ExportsValue where
  | str (s : String)
  | null
deriving Repr, DecidableEq

/-- The `exports` field of a `package.json`: absent, a single string, or
an object of sub-path keys; mirrors the shapes `PackageJson.js`
distinguishes with `isObject` / `typeof`. -/
inductive ExportsField where
  | fmissing
  | fstr (s : String)
  | fpaths (entries : List (String × ExportsValue))
deriving Repr, DecidableEq

/-- True when the JavaScript `isObject` test on the field holds. -/
def ExportsField.isObj : ExportsField → Bool
  | .fpaths _ => true
  | _ => false

/-- True when the field is a single string. -/
def ExportsField.isStr : ExportsField → Bool
  | .fstr _ => true
  | _ => false

/-- The parsed `package.json` object with the fields the generator
reads. -/
structure PackageObj where
  name : String
  exports : ExportsField := .fmissing
  types : Option String := none
  typings : Option String := none
deriving Repr, DecidableEq

/-- Decimal string of a natural number, modelling JavaScript object-key
coercion of array / string indices. -/
def natToKey (n : Nat) : String :=
  Nat.repr n

/-- The keys the JavaScript `for...in` loop enumerates over the
`exports` field: the own enumerable property names — sub-path keys for
an object, the character indices for a primitive string, nothing when
absent. -/
def forInKeys : ExportsField → List String
  | .fmissing => []
  | .fstr s => (List.range s.data.length).map natToKey
  | .fpaths entries => entries.map (fun e => e.1)

/-- First-match association-list lookup, modelling JavaScript object /
`Map` key lookup. -/
def lookupAssoc {α : Type} : List (String × α) → String → Option α
  | [], _ => none
  | (k, v) :: t, key => if k = key then some v else lookupAssoc t key

/-- JavaScript object property assignment on an association list: an
existing key keeps its position and gets the new value, a new key is
appended. -/
def objSet (l : List (String × String)) (k v : String) : List (String × String) :=
  if (lookupAssoc l k).isSome then
    l.map (fun p => if p.1 = k then (k, v) else p)
  else l ++ [(k, v)]

/-- Model of `resolve.exports` `toEntry`: the package name and `"."`
denote the root entry, anything else is given a `./` lead-in. -/
def toEntry (pkgName input : String) : String :=
  if input = "." ∨ input = pkgName then "."
  else if startsWithL ['.', '/'] input.data then input
  else ⟨'.' :: '/' :: input.data⟩

/-- Model of the external `resolve.exports` `exports` function on the
fragment this repository exercises: a string `exports` sugar-wraps to
the root entry, an object is looked up by the exact requested key (the
generator only ever requests keys taken from the map itself), a string
target resolves under every condition (the documented inability to
filter out the `default` condition), `null` and missing keys yield no
result — a thrown resolver error and an `undefined` result are both
treated as `none`, exactly as the caller's `catch` / array check do.
The conditions list does not influence string targets and is kept for
call-shape fidelity. -/
def resolveExportsM (pkg : PackageObj) (input : String) (_conds : List String) :
    Option (List String) :=
  match pkg.exports with
  | .fmissing => none
  | .fstr s => if toEntry pkg.name input = "." then some [s] else none
  | .fpaths entries =>
    match lookupAssoc entries (toEntry pkg.name input) with
    | some (.str s) => some [s]
    | some .null => none
    | none => none

/-- The modelled file system: absolute forward-slash paths of existing
files and directories, and the parsed `package.json` found in each
package directory. -/
structure FS where
  files : List String := []
  dirs : List String := []
  packages : List (String × PackageObj) := []
deriving Repr, DecidableEq

/-- Model of `@typhonjs-utils/file-util` `isFile` with the working
directory explicit: resolve and test membership; never throws. -/
def isFileM (fs : FS) (cwd p : String) : Bool :=
  fs.files.contains (pathResolveCwd cwd p)

/-- Model of `@typhonjs-utils/file-util` `isDirectory`. -/
def isDirectoryM (fs : FS) (cwd p : String) : Bool :=
  fs.dirs.contains (pathResolveCwd cwd p)

/-- The `isDTSFile` predicate of `validation.js`: an existing file with
a declaration extension. -/
def isDTSFileM (fs : FS) (cwd p : String) : Bool :=
  isFileM fs cwd p && regexIsDTSFileTest p

/-- Strip every leading `./` from a glob pattern, as the glob library
normalizes patterns. -/
def stripDotSlashAux : Nat → List Char → List Char
  | 0, l => l
  | fuel + 1, l =>
    match l with
    | '.' :: '/' :: rest => stripDotSlashAux fuel rest
    | _ => l

/-- String wrapper of `stripDotSlashAux`. -/
def stripDotSlash (s : String) : String :=
  ⟨stripDotSlashAux s.data.length s.data⟩

/-- Single-`*` glob match of a pattern against a relative path: the `*`
matches any run of characters without a slash; a star-free pattern must
match exactly. -/
def globMatch1 (pat rel : List Char) : Bool :=
  match splitFirstStar pat with
  | none => pat = rel
  | some ps =>
    startsWithL ps.1 rel && endsWithL ps.2 rel &&
      decide (ps.1.length + ps.2.length ≤ rel.length) &&
      ((rel.drop ps.1.length).take (rel.length - ps.1.length - ps.2.length)).all
        (fun c => ¬ c = '/')

/-- Model of the synchronous glob expansion over the modelled file
system: every listed file under the working directory whose relative
path matches the pattern, in file-list order, returned relative to the
working directory. -/
def globSyncM (fs : FS) (cwd pattern : String) : List String :=
  let pat := (stripDotSlash pattern).data
  fs.files.filterMap (fun f =>
    if startsWithL (cwd.data ++ ['/']) f.data then
      let rel := f.data.drop (cwd.data.length + 1)
      if globMatch1 pat rel then some ⟨rel⟩ else none
    else none)

/-- One resolved documentation entry point as stored in an `ExportMap`:
the raw entry path handed to `processExport`, the declared sub-path key,
and the unexpanded wildcard target when the entry came from a glob
expansion. -/
structure ExportEntry where
  entryPath : String
  exportPath : String
  globEntryPath : Option String := none
deriving Repr, DecidableEq

/-- The state built by export-map creation: the ordered map from
resolved absolute path to entry data, plus the warnings logged. -/
abbrev EMState : Type := List (String × ExportEntry) × List String

/-- The `processExport` closure of `ExportMapSupport.#createExportMapTypes`:
reject (with a warning) anything that is not a declaration file, then
insert keyed by the resolved absolute path unless already present. -/
def processExportTypes (fs : FS) (cwd : String) (st : EMState)
    (pEntryPath pExportPath : String) (pGlobEntryPath : Option String) : EMState :=
  if isDTSFileM fs cwd pEntryPath then
    let filepath := pathResolveCwd cwd pEntryPath
    if (lookupAssoc st.1 filepath).isSome then st
    else (st.1 ++ [(filepath, ⟨pEntryPath, pExportPath, pGlobEntryPath⟩)], st.2)
  else
    (st.1, st.2 ++ ["Warning: export condition is not a DTS file; " ++
      pExportPath ++ ": " ++ pEntryPath])

/-- The loop body shared by the export-map builders: resolve the key,
drop non-array and non-string results, apply the extension prefilter,
then either glob-expand or process the single candidate. -/
def emStepWith (prefilter : String → Bool)
    (proc : EMState → String → String → Option String → EMState)
    (fs : FS) (cwd : String) (pkg : PackageObj) (st : EMState)
    (exportPath : String) (conds : List String) : EMState :=
  match resolveExportsM pkg exportPath conds with
  | none => st
  | some [] => st
  | some (entryPath :: _) =>
    if prefilter entryPath then
      if isGlobM exportPath || isGlobM entryPath then
        (globSyncM fs cwd entryPath).foldl
          (fun st2 g => proc st2 g exportPath (some entryPath)) st
      else proc st entryPath exportPath none
    else st

/-- Model of `ExportMapSupport.#createExportMapTypes`: iterate the
`for...in` keys of the `exports` field under the fixed `types`
condition, with the silent `regexIsDTSFile` prefilter on the resolved
target. -/
def createExportMapTypes (fs : FS) (cwd : String) (pkg : PackageObj) : EMState :=
  (forInKeys pkg.exports).foldl
    (fun st exportPath =>
      emStepWith regexIsDTSFileTest (processExportTypes fs cwd) fs cwd pkg st
        exportPath ["types"])
    ([], [])

/-- The `processExport` closure of
`ExportMapSupport.#createExportMapCondition`: reject (with a warning)
anything that is not an existing file, then insert unless already
present. -/
def processExportCondition (fs : FS) (cwd : String) (st : EMState)
    (pEntryPath pExportPath : String) (pGlobEntryPath : Option String) : EMState :=
  if isFileM fs cwd pEntryPath then
    let filepath := pathResolveCwd cwd pEntryPath
    if (lookupAssoc st.1 filepath).isSome then st
    else (st.1 ++ [(filepath, ⟨pEntryPath, pExportPath, pGlobEntryPath⟩)], st.2)
  else
    (st.1, st.2 ++ ["Warning: export condition is not a file; " ++
      pExportPath ++ ": " ++ pEntryPath])

/-- Model of `ExportMapSupport.#createExportMapCondition`: like the
`types` variant but resolving the user-supplied condition with the
`regexAllowedFiles` prefilter and the plain `isFile` check. -/
def createExportMapCondition (fs : FS) (cwd : String) (cond : String)
    (pkg : PackageObj) : EMState :=
  (forInKeys pkg.exports).foldl
    (fun st exportPath =>
      emStepWith regexAllowedFilesTest (processExportCondition fs cwd) fs cwd pkg st
        exportPath [cond])
    ([], [])

/-- JavaScript `Map.set` on the association list: an existing key keeps
its position and gets the new value, a new key is appended. -/
def mapSet (l : List (String × ExportEntry)) (k : String) (v : ExportEntry) :
    List (String × ExportEntry) :=
  if (lookupAssoc l k).isSome then
    l.map (fun p => if p.1 = k then (k, v) else p)
  else l ++ [(k, v)]

/-- The `processExport` closure of the older `ExportMap.js`
`processExportsTypes`: the duplicate check `exportMap.has(filepath)` is
followed by the bare expression statement `false;` instead of a
`return`, so the `Map.set` below it always runs and a later duplicate
overwrites the stored entry data. -/
def processExportTypesEM (fs : FS) (cwd : String) (st : EMState)
    (pEntryPath pExportPath : String) (pGlobEntryPath : Option String) : EMState :=
  if isDTSFileM fs cwd pEntryPath then
    let filepath := pathResolveCwd cwd pEntryPath
    (mapSet st.1 filepath ⟨pEntryPath, pExportPath, pGlobEntryPath⟩, st.2)
  else
    (st.1, st.2 ++ ["Warning: export condition is not a DTS file; " ++
      pExportPath ++ ": " ++ pEntryPath])

/-- Model of the older `ExportMap.js` `processExportsTypes`, identical
to `createExportMapTypes` except for the broken duplicate check in its
`processExport` closure. -/
def createExportMapTypesEM (fs : FS) (cwd : String) (pkg : PackageObj) : EMState :=
  (forInKeys pkg.exports).foldl
    (fun st exportPath =>
      emStepWith regexIsDTSFileTest (processExportTypesEM fs cwd) fs cwd pkg st
        exportPath ["types"])
    ([], [])

/-- The legacy `types` / `typings` fallback of `PackageJson.#process`:
when the condition is `types` and no export-map entry exists, a string
`types` field (else `typings`) yields the single resolved entry point
provided it is a declaration file; a bad `types` string only warns and
does not fall through to `typings`. -/
def typesFallbackEntryPoints (fs : FS) (dirpath : String) (obj : PackageObj) :
    List String :=
  match obj.types with
  | some t =>
    if isDTSFileM fs dirpath t then
      [pathResolveCwd dirpath (pathResolveCwd dirpath t)]
    else []
  | none =>
    match obj.typings with
    | some t =>
      if isDTSFileM fs dirpath t then
        [pathResolveCwd dirpath (pathResolveCwd dirpath t)]
      else []
    | none => []

/-- Dispatch of `ExportMapSupport.create` on the export condition. -/
def createExportMap (fs : FS) (cwd cond : String) (pkg : PackageObj) : EMState :=
  if cond = "types" then createExportMapTypes fs cwd pkg
  else createExportMapCondition fs cwd cond pkg

/-- The constructed `PackageJson` instance of
`data/PackageJson.js`: the export map is built when `exports` is an
object, or when it is a string and the condition is `default`; the
entry points are the map keys, else the legacy fallback under the
`types` condition. -/
structure PackageJsonM where
  obj : PackageObj
  filepath : String
  exportCondition : String
  exportMap : Option (List (String × ExportEntry))
  entryPoints : List String
  dirpath : String
deriving Repr, DecidableEq

/-- Model of the `PackageJson` constructor together with its
`#process` step, run while the process working directory is the package
directory. -/
def mkPackageJson (fs : FS) (obj : PackageObj) (filepath cond : String) :
    PackageJsonM :=
  let dirpath := pathDirname filepath
  let exportMap :=
    if obj.exports.isObj || (cond = "default" && obj.exports.isStr) then
      some (createExportMap fs dirpath cond obj).1
    else none
  let entryPoints :=
    match exportMap with
    | some m =>
      if m.length ≠ 0 then m.map (fun e => e.1)
      else if cond = "types" then typesFallbackEntryPoints fs dirpath obj else []
    | none =>
      if cond = "types" then typesFallbackEntryPoints fs dirpath obj else []
  ⟨obj, filepath, cond, exportMap, entryPoints, dirpath⟩

/-- The display name the naming pass (`ExportMapSupport.processMapping`)
computes for one export entry: for a wildcard entry the unexpanded
target pattern is stripped of leading relative segments, its first `*`
becomes a capturing group, the regular expression is matched against
the stored `entryPath` (the concrete glob-expanded path), and the
capture substitutes every `*` of the declared sub-path key; a failed
match skips the entry.  Otherwise the declared sub-path key is joined
to the package name. -/
def resolvedNameOf (packageName : String) (e : ExportEntry) : Option String :=
  match e.globEntryPath with
  | some gep =>
    if isGlobM e.exportPath then
      match wildcardCaptureJS (stripLeadingRel gep) e.entryPath with
      | none => none
      | some cap => some (pathJoin packageName (replaceStarStr e.exportPath cap))
    else some (pathJoin packageName e.exportPath)
  | none => some (pathJoin packageName e.exportPath)

/-- The README association the naming pass computes for one export
entry: the package-root README for the default export only when
multiple packages are processed and the file exists, else the README
next to the resolved entry file when it exists and differs from the
package-root README. -/
def readmeOf (fs : FS) (mp : Bool) (pkg : PackageJsonM)
    (resolvedPackageName : String) (e : ExportEntry) : Option String :=
  let packageReadmePath := pathResolveCwd pkg.dirpath (pkg.dirpath ++ "/README.md")
  if resolvedPackageName = pkg.obj.name then
    if mp && isFileM fs pkg.dirpath packageReadmePath then some packageReadmePath
    else none
  else
    let subReadmePath :=
      pathResolveCwd pkg.dirpath (pathDirname e.entryPath ++ "/README.md")
    if subReadmePath ≠ packageReadmePath ∧ isFileM fs pkg.dirpath subReadmePath then
      some subReadmePath
    else none

/-- One recorded call of `PkgTypeDocMapping.addMapping`. -/
structure MappingCall where
  filepath : String
  resolvedPackageName : String
  readmePath : Option String
deriving Repr, DecidableEq

/-- The sequence of `PkgTypeDocMapping.addMapping` calls issued by
`ExportMapSupport.processMapping` for one package: entries whose
wildcard match fails are skipped. -/
def mappingCalls (fs : FS) (mp : Bool) (pkg : PackageJsonM) : List MappingCall :=
  (pkg.exportMap.getD []).filterMap (fun fe =>
    (resolvedNameOf pkg.obj.name fe.2).map (fun rn =>
      ⟨fe.1, rn, readmeOf fs mp pkg rn fe.2⟩))

/-- The two substitution tables `PkgTypeDocMapping` fills:
`dmtModuleNames` and `dmtModuleReadme`. -/
structure Tables where
  dmtModuleNames : List (String × String) := []
  dmtModuleReadme : List (String × String) := []
deriving Repr, DecidableEq, Inhabited

/-- The README half of `PkgTypeDocMapping.addMapping`. -/
def addReadme (t : Tables) (c : MappingCall) : Tables :=
  match c.readmePath with
  | some rp => { t with dmtModuleReadme := objSet t.dmtModuleReadme c.resolvedPackageName rp }
  | none => t

/-- Model of `PkgTypeDocMapping.addMapping` given the stored common
basepath: a file at the common root is keyed by its extension-free file
name; otherwise the extension-free relative path with a trailing
`/index` stripped is the key, and an empty key aborts the call before
the README table is touched. -/
def addMapping (basepath : String) (t : Tables) (c : MappingCall) : Tables :=
  let rel := getRelativePathM basepath c.filepath
  let relativeDir := pathDirname rel
  if relativeDir = "." then
    let filename := takeUntilDot (pathBasename c.filepath)
    addReadme
      { t with dmtModuleNames := objSet t.dmtModuleNames filename c.resolvedPackageName } c
  else
    let relativePath := stripSlashIndex (takeUntilDot rel)
    if relativePath = "" then t
    else
      addReadme
        { t with dmtModuleNames := objSet t.dmtModuleNames relativePath c.resolvedPackageName } c

/-- Model of `PackageJson.processMapping` with the working directory
threaded: `ExportMapSupport.processMapping` switches to the package
directory and restores the saved directory when done; a package whose
export map is empty falls back, under the `types` condition with a
single entry point, to one `addMapping` call that attaches the
package-root README only when multiple packages are processed. -/
def pkgProcessMappingS (fs : FS) (basepath : String) (mp : Bool)
    (acc : Tables × String) (pkg : PackageJsonM) : Tables × String :=
  if (pkg.exportMap.getD []).length ≠ 0 then
    let origCWD := acc.2
    let t := (mappingCalls fs mp pkg).foldl (addMapping basepath) acc.1
    (t, origCWD)
  else if pkg.exportCondition = "types" ∧ pkg.entryPoints.length = 1 then
    let fp := pkg.entryPoints.headD ""
    let packageReadmePath := pathResolveCwd pkg.dirpath (pkg.dirpath ++ "/README.md")
    let rp := if mp && isFileM fs pkg.dirpath packageReadmePath then
        some packageReadmePath else none
    (addMapping basepath acc.1 ⟨fp, pkg.obj.name, rp⟩, acc.2)
  else acc

/-- The accumulated state of the input loop of `processPath`: the
deduplicated entry-point set in insertion order, the packages collected
so far, and the process working directory. -/
structure CollectSt where
  entries : List String
  pkgs : List PackageJsonM
  cwd : String
deriving Repr, DecidableEq

/-- Insertion into the `allEntryPoints` set: keep insertion order,
ignore an already-present path. -/
def addEntryUnique (l : List String) (e : String) : List String :=
  if l.contains e then l else l ++ [e]

/-- The per-input loop of `processPath`: a directory or explicit
`package.json` input switches the working directory to the package
directory, requires a discoverable `package.json` (fatal otherwise,
with the working directory left switched), builds the package and
collects its entry points; an existing file with an allowed extension
becomes a bare entry point; anything else is ignored; each iteration
restores the saved working directory on its normal exit. -/
def collectLoop (fs : FS) (cond : String) :
    List String → CollectSt → Except (String × String) CollectSt
  | [], st => .ok st
  | p :: rest, st =>
    let origCWD := st.cwd
    let isPathDir := isDirectoryM fs st.cwd p
    if isPathDir || strEndsWith p "package.json" then
      let dirname :=
        if isPathDir then pathResolveCwd st.cwd p
        else pathDirname (pathResolveCwd st.cwd p)
      match lookupAssoc fs.packages dirname with
      | none => .error ("No \x27package.json\x27 found in: " ++ dirname, dirname)
      | some obj =>
        let pj := mkPackageJson fs obj (dirname ++ "/package.json") cond
        collectLoop fs cond rest
          ⟨pj.entryPoints.foldl addEntryUnique st.entries, st.pkgs ++ [pj], origCWD⟩
    else if isFileM fs st.cwd p && regexAllowedFilesTest p then
      collectLoop fs cond rest
        ⟨addEntryUnique st.entries (pathResolveCwd st.cwd p), st.pkgs, origCWD⟩
    else
      collectLoop fs cond rest ⟨st.entries, st.pkgs, origCWD⟩

/-- The processed output of `processPath` on success: the entry-point
list, the collected packages, the computed common basepath handed to
`PkgTypeDocMapping.initialize`, the filled tables, the
multiple-packages flag, and the all-declarations flag. -/
structure ProcOut where
  entryPoints : List String
  allPackages : List PackageJsonM
  basepath : String
  tables : Tables
  multiplePackages : Bool
  entryPointsDTS : Bool
deriving Repr, DecidableEq

/-- Model of `processPath`: process every input in order, abort when no
entry point was found, compute the common basepath of the whole
entry-point set once, then run the naming pass for every package with
that single basepath.  The second component is the final process
working directory. -/
def processPathS (fs : FS) (paths : List String) (cond cwd0 : String) :
    Except String ProcOut × String :=
  match collectLoop fs cond paths ⟨[], [], cwd0⟩ with
  | .error es => (.error es.1, es.2)
  | .ok st =>
    if st.entries.length = 0 then
      (.error "No entry points found to load for documentation generation.", st.cwd)
    else
      let basepath := commonPathM st.entries
      let mp := decide (st.pkgs.length > 1)
      let folded := st.pkgs.foldl (pkgProcessMappingS fs basepath mp) (⟨[], []⟩, st.cwd)
      (.ok ⟨st.entries, st.pkgs, basepath, folded.1, mp,
        st.entries.all regexIsDTSFileTest⟩, folded.2)

/-- The observable outcome of one `generateDocs` invocation: whether
the external generator ran, the error logged when processing failed,
and the processed output otherwise. -/
structure GenResult where
  generated : Bool
  errorLogged : Option String
  output : Option ProcOut
deriving Repr, DecidableEq

/-- Model of `generateDocs` for one configuration: the working
directory is saved before config processing and restored right after
it; a string result is logged as an error and the external generator is
not invoked. -/
def generateDocsS (fs : FS) (paths : List String) (cond cwd0 : String) :
    GenResult × String :=
  let origCWD := cwd0
  let pr := processPathS fs paths cond cwd0
  let cwd2 := origCWD
  match pr.1 with
  | .error msg => (⟨false, some msg, none⟩, cwd2)
  | .ok out => (⟨true, none, some out⟩, cwd2)

/-- The display name computed as the specification words it: the
regular expression built from the stripped unexpanded target pattern is
matched against the unexpanded target itself, rather than against the
stored concrete entry path.  This definition follows the
specification's words and exists only to be compared with
`resolvedNameOf`, which follows the code. -/
def specResolvedNameOf (packageName : String) (e : ExportEntry) : Option String :=
  match e.globEntryPath with
  | some gep =>
    if isGlobM e.exportPath then
      match wildcardCaptureJS (stripLeadingRel gep) gep with
      | none => none
      | some cap => some (pathJoin packageName (replaceStarStr e.exportPath cap))
    else some (pathJoin packageName e.exportPath)
  | none => some (pathJoin packageName e.exportPath)

/-- A clean path string: nonempty, with every slash-separated segment
nonempty and distinct from the dot segments; package names and declared
sub-paths of well-formed packages satisfy it. -/
def cleanPath (s : String) : Prop :=
  s.data ≠ [] ∧ ∀ seg ∈ chSplit '/' s.data, seg ≠ [] ∧ seg ≠ ['.'] ∧ seg ≠ ['.', '.']

instance (s : String) : Decidable (cleanPath s) := by
  unfold cleanPath
  infer_instance

/-- Fallback extraction of a successful `processPath` output. -/
def procOutOrDefault (r : Except String ProcOut) : ProcOut :=
  match r with
  | .ok out => out
  | .error _ => ⟨[], [], "", ⟨[], []⟩, false, false⟩

/-- Example package for claim C1: a root export and one sub-path
export, both declaration files. -/
def pkgC1 : PackageObj :=
  { name := "rootpkg",
    exports := .fpaths [(".", .str "./src/index.d.ts"), ("./sub", .str "./src/sub/index.d.ts")] }

/-- Example file system for claim C1. -/
def fsC1 : FS :=
  { files := ["/pkg1/src/index.d.ts", "/pkg1/src/sub/index.d.ts"],
    dirs := ["/pkg1"],
    packages := [("/pkg1", pkgC1)] }

/-- The constructed package of claim C1. -/
def pjC1 : PackageJsonM := mkPackageJson fsC1 pkgC1 "/pkg1/package.json" "types"

/-- Example package for claim C2: a wildcard sub-path export. -/
def pkgC2 : PackageObj :=
  { name := "mypkg",
    exports := .fpaths [("./features/*", .str "./src/features/*.d.ts")] }

/-- Example file system for claim C2: two concrete feature declaration
files matching the wildcard target. -/
def fsC2 : FS :=
  { files := ["/pkg/src/features/a.d.ts", "/pkg/src/features/b.d.ts"],
    dirs := ["/pkg"],
    packages := [("/pkg", pkgC2)] }

/-- The constructed package of claim C2. -/
def pjC2 : PackageJsonM := mkPackageJson fsC2 pkgC2 "/pkg/package.json" "types"

/-- The first export entry claim C2's wildcard example produces. -/
def entryC2a : ExportEntry :=
  ⟨"src/features/a.d.ts", "./features/*", some "./src/features/*.d.ts"⟩

/-- Monorepo-style example for claims C3 and C9: two packages sharing
the directory `/repo`. -/
def pkgC3a : PackageObj :=
  { name := "pkg-a", exports := .fpaths [(".", .str "./src/index.d.ts")] }

/-- Second package of the monorepo example. -/
def pkgC3b : PackageObj :=
  { name := "pkg-b", exports := .fpaths [(".", .str "./src/index.d.ts")] }

/-- Example file system for claims C3 and C9. -/
def fsC3 : FS :=
  { files := ["/repo/pkgA/src/index.d.ts", "/repo/pkgB/src/index.d.ts"],
    dirs := ["/repo", "/repo/pkgA", "/repo/pkgB"],
    packages := [("/repo/pkgA", pkgC3a), ("/repo/pkgB", pkgC3b)] }

/-- The successful output of the monorepo example. -/
def outC3 : ProcOut :=
  procOutOrDefault (processPathS fsC3 ["/repo/pkgA", "/repo/pkgB"] "types" "/work").1

/-- Example package for claim C4: two sub-path keys resolving to the
same physical declaration file. -/
def pkgC4 : PackageObj :=
  { name := "dup",
    exports := .fpaths [(".", .str "./index.d.ts"), ("./alt", .str "./index.d.ts")] }

/-- Example file system for claim C4. -/
def fsC4 : FS :=
  { files := ["/pkg4/index.d.ts"],
    dirs := ["/pkg4"],
    packages := [("/pkg4", pkgC4)] }

/-- Example package for claim C5: a single package with only a root
export and a package-root README present. -/
def pkgC5 : PackageObj :=
  { name := "solo", exports := .fpaths [(".", .str "./src/index.d.ts")] }

/-- Example file system for claim C5. -/
def fsC5 : FS :=
  { files := ["/pkg5/src/index.d.ts", "/pkg5/README.md"],
    dirs := ["/pkg5"],
    packages := [("/pkg5", pkgC5)] }

/-- The successful output of the single-package README example. -/
def outC5 : ProcOut :=
  procOutOrDefault (processPathS fsC5 ["/pkg5"] "types" "/work").1

/-- Example package for claim C6: the root export points at a plain
`.js` file. -/
def pkgC6 : PackageObj :=
  { name := "jspkg", exports := .fpaths [(".", .str "./index.js")] }

/-- Example file system for claim C6: the `.js` target exists. -/
def fsC6 : FS :=
  { files := ["/pkg6/index.js"],
    dirs := ["/pkg6"],
    packages := [("/pkg6", pkgC6)] }

/-- Example package for claim C7: an empty `exports` object and no
legacy `types` / `typings` fields. -/
def pkgC7 : PackageObj := { name := "empty", exports := .fpaths [] }

/-- Example file system for claim C7. -/
def fsC7 : FS :=
  { files := [], dirs := ["/pkg7"], packages := [("/pkg7", pkgC7)] }

/-- Example package for claim C8: the `exports` field is a single
string. -/
def pkgC8 : PackageObj := { name := "strpkg", exports := .fstr "./index.js" }

/-- Example file system for claim C8: the string target exists. -/
def fsC8 : FS :=
  { files := ["/pkg8/index.js"],
    dirs := ["/pkg8"],
    packages := [("/pkg8", pkgC8)] }

/-- Example file system for claim C10: one package whose export is a
declaration file plus a bare plain `.ts` file input. -/
def pkgC10 : PackageObj :=
  { name := "mixed", exports := .fpaths [(".", .str "./src/index.d.ts")] }

/-- Example file system for claim C10. -/
def fsC10 : FS :=
  { files := ["/mix/pkgA/src/index.d.ts", "/mix/extra.ts"],
    dirs := ["/mix", "/mix/pkgA"],
    packages := [("/mix/pkgA", pkgC10)] }

/-- The successful output of the mixed-entry-point example. -/
def outC10 : ProcOut :=
  procOutOrDefault (processPathS fsC10 ["/mix/pkgA", "/mix/extra.ts"] "types" "/work").1

/-- The successful output of the wildcard example pipeline. -/
def outC2 : ProcOut :=
  procOutOrDefault (processPathS fsC2 ["/pkg"] "types" "/work").1

/-- The constructed package of claim C5. -/
def pjC5 : PackageJsonM := mkPackageJson fsC5 pkgC5 "/pkg5/package.json" "types"

/-- Fallback extraction of a successful input-loop state. -/
def collectStOrDefault (r : Except (String × String) CollectSt) : CollectSt :=
  match r with
  | .ok st => st
  | .error _ => ⟨[], [], ""⟩

/-- The collected state of the empty-exports example of claim C7. -/
def stC7 : CollectSt :=
  collectStOrDefault (collectLoop fsC7 "types" ["/pkg7"] ⟨[], [], "/work"⟩)

/-- Generic preservation of an invariant along a left fold. -/
theorem foldl_inv {α β : Type} (P : β → Prop) (f : β → α → β)
    (h : ∀ b a, P b → P (f b a)) :
    ∀ (l : List α) (b : β), P b → P (List.foldl f b l) := by
  intro l
  induction l with
  | nil => intro b hb; exact hb
  | cons a t ih => intro b hb; exact ih _ (h b a hb)

/-- `chSplit` never returns an empty list of segments. -/
theorem chSplit_ne_nil (c : Char) (l : List Char) : chSplit c l ≠ [] := by
  cases l with
  | nil => simp [chSplit]
  | cons x xs =>
    simp only [chSplit]
    split
    · simp
    · split <;> simp


/-- Unfolding equation: a two-or-more segment join starts with the
first segment and a slash. -/
theorem joinSegs_cons₂ (s u : List Char) (v : List (List Char)) :
    joinSegs (s :: u :: v) = s ++ '/' :: joinSegs (u :: v) := rfl

/-- Splitting distributes over an append through a separator. -/
theorem chSplit_append (c : Char) (l₁ l₂ : List Char) :
    chSplit c (l₁ ++ c :: l₂) = chSplit c l₁ ++ chSplit c l₂ := by
  induction l₁ with
  | nil => simp [chSplit]
  | cons x xs ih =>
    by_cases hx : x = c
    · subst hx
      simp [chSplit, ih]
    · simp only [List.cons_append, chSplit, if_neg hx]
      rw [List.append_eq, ih]
      cases h : chSplit c xs with
      | nil => exact absurd h (chSplit_ne_nil c xs)
      | cons a b => simp

/-- Joining the segments of a split recovers the original list. -/
theorem joinSegs_chSplit (l : List Char) : joinSegs (chSplit '/' l) = l := by
  induction l with
  | nil => rfl
  | cons x xs ih =>
    by_cases hx : x = '/'
    · subst hx
      rw [show chSplit '/' ('/' :: xs) = [] :: chSplit '/' xs from by simp [chSplit]]
      cases h : chSplit '/' xs with
      | nil => exact absurd h (chSplit_ne_nil '/' xs)
      | cons a b =>
        rw [h] at ih
        rw [joinSegs_cons₂]
        simpa using ih
    · rw [show chSplit '/' (x :: xs) =
          (match chSplit '/' xs with
            | [] => [[x]]
            | h :: t => (x :: h) :: t) from by simp [chSplit, hx]]
      cases h : chSplit '/' xs with
      | nil => exact absurd h (chSplit_ne_nil '/' xs)
      | cons a b =>
        rw [h] at ih
        cases b with
        | nil =>
          show joinSegs [x :: a] = x :: xs
          have ha : joinSegs [a] = xs := ih
          have ha2 : a = xs := ha
          simp [joinSegs, ha2]
        | cons u v =>
          show joinSegs ((x :: a) :: u :: v) = x :: xs
          rw [joinSegs_cons₂] at ih ⊢
          simp only [List.cons_append]
          rw [ih]

/-- Joining distributes over an append of nonempty segment lists. -/
theorem joinSegs_append (l₁ l₂ : List (List Char)) (h₁ : l₁ ≠ []) (h₂ : l₂ ≠ []) :
    joinSegs (l₁ ++ l₂) = joinSegs l₁ ++ '/' :: joinSegs l₂ := by
  induction l₁ with
  | nil => exact absurd rfl h₁
  | cons s t ih =>
    cases t with
    | nil =>
      cases l₂ with
      | nil => exact absurd rfl h₂
      | cons a b =>
        rw [show ([s] ++ a :: b) = s :: a :: b from rfl, joinSegs_cons₂]
        rfl
    | cons u v =>
      have step := ih (by simp)
      rw [List.cons_append, List.cons_append, joinSegs_cons₂,
        ← List.cons_append, step, joinSegs_cons₂]
      simp [List.append_assoc]

/-- Normalization walks over clean segments by consing each one. -/
theorem normAuxRel_clean_append (l : List (List Char))
    (h : ∀ seg ∈ l, seg ≠ [] ∧ seg ≠ ['.'] ∧ seg ≠ ['.', '.']) :
    ∀ acc rest, normAuxRel acc (l ++ rest) = normAuxRel (l.reverse ++ acc) rest := by
  induction l with
  | nil => intro acc rest; simp
  | cons s t ih =>
    intro acc rest
    obtain ⟨h1, h2, h3⟩ := h s (by simp)
    have hc1 : ¬ (s = [] ∨ s = ['.']) := by
      rw [not_or]; exact ⟨h1, h2⟩
    simp only [List.cons_append, normAuxRel, if_neg hc1, if_neg h3]
    rw [List.append_eq, ih (fun seg hs => h seg (by simp [hs])) (s :: acc) rest]
    congr 1
    simp

/-- Normalization skips a `.` segment. -/
theorem normAuxRel_dot (acc : List (List Char)) (rest : List (List Char)) :
    normAuxRel acc (['.'] :: rest) = normAuxRel acc rest := by
  simp [normAuxRel]

/-- Normalization of a list of clean segments is the identity. -/
theorem normAuxRel_clean (l : List (List Char))
    (h : ∀ seg ∈ l, seg ≠ [] ∧ seg ≠ ['.'] ∧ seg ≠ ['.', '.'])
    (acc : List (List Char)) :
    normAuxRel acc l = acc.reverse ++ l := by
  have step := normAuxRel_clean_append l h acc []
  simp only [List.append_nil] at step
  rw [step]
  simp [normAuxRel]

/-- String append acts as list append on the character data. -/
theorem strData_append (a b : String) : (a ++ b).data = a.data ++ b.data := rfl

/-- Character data of the slash literal. -/
theorem slashData : "/".data = ['/'] := by decide

/-- Character data of the dot literal. -/
theorem dotData : ".".data = ['.'] := by decide

/-- Character data of the dot-slash literal. -/
theorem dotSlashData : "./".data = ['.', '/'] := by decide

/-- String equality from character-data equality. -/
theorem strMk_eq {l : List Char} {s : String} (h : s.data = l) :
    String.mk l = s := by
  cases s
  cases h
  rfl

/-- Unfolding of `pathNormalizeRel` when the normalized segment list is
known and nonempty. -/
theorem pathNormalizeRel_eq {s : String} {segs : List (List Char)}
    (h : normAuxRel [] (chSplit '/' s.data) = segs) (hne : segs ≠ []) :
    pathNormalizeRel s = ⟨joinSegs segs⟩ := by
  unfold pathNormalizeRel
  rw [h]
  cases segs with
  | nil => exact absurd rfl hne
  | cons a b => rfl

/-- Joining a clean path with the `.` sub-path returns the path
unchanged, as `upath.join` does. -/
theorem pathJoin_dot {name : String} (h : cleanPath name) :
    pathJoin name "." = name := by
  unfold pathJoin
  have hsegs : chSplit '/' (name ++ "/" ++ ".").data =
      chSplit '/' name.data ++ [['.']] := by
    rw [show (name ++ "/" ++ ".").data = name.data ++ '/' :: ['.'] from by
      rw [strData_append, strData_append, slashData, dotData]; simp]
    rw [chSplit_append]
    rfl
  have hnorm : normAuxRel [] (chSplit '/' (name ++ "/" ++ ".").data) =
      chSplit '/' name.data := by
    rw [hsegs, normAuxRel_clean_append _ h.2 [] [['.']], normAuxRel_dot]
    simp [normAuxRel]
  rw [pathNormalizeRel_eq hnorm (chSplit_ne_nil '/' name.data), joinSegs_chSplit]

/-- Joining a clean path with a clean `./sub` sub-path appends the
sub-path after a slash, as `upath.join` does. -/
theorem pathJoin_dotSlash {name sub : String} (hn : cleanPath name)
    (hs : cleanPath sub) :
    pathJoin name ("./" ++ sub) = name ++ "/" ++ sub := by
  unfold pathJoin
  have hsegs : chSplit '/' (name ++ "/" ++ ("./" ++ sub)).data =
      chSplit '/' name.data ++ [['.']] ++ chSplit '/' sub.data := by
    rw [show (name ++ "/" ++ ("./" ++ sub)).data =
        name.data ++ '/' :: ('.' :: '/' :: sub.data) from by
      rw [strData_append, strData_append, strData_append, slashData, dotSlashData]
      simp]
    rw [chSplit_append]
    rw [show ('.' :: '/' :: sub.data) = ['.'] ++ '/' :: sub.data from by simp]
    rw [chSplit_append]
    rw [show chSplit '/' ['.'] = [['.']] from rfl, List.append_assoc]
  have hnorm : normAuxRel [] (chSplit '/' (name ++ "/" ++ ("./" ++ sub)).data) =
      chSplit '/' name.data ++ chSplit '/' sub.data := by
    rw [hsegs, List.append_assoc, List.singleton_append,
      normAuxRel_clean_append _ hn.2 [] _, normAuxRel_dot,
      normAuxRel_clean _ hs.2 _]
    simp
  have hne : chSplit '/' name.data ++ chSplit '/' sub.data ≠ [] := by
    intro hcontra
    exact chSplit_ne_nil '/' name.data (List.append_eq_nil.mp hcontra).1
  rw [pathNormalizeRel_eq hnorm hne]
  rw [joinSegs_append _ _ (chSplit_ne_nil '/' name.data) (chSplit_ne_nil '/' sub.data)]
  rw [joinSegs_chSplit, joinSegs_chSplit]
  apply strMk_eq
  rw [strData_append, strData_append, slashData]
  simp

/-- A successful run of the input loop restores the working directory
of its initial state. -/
theorem collectLoop_ok_cwd (fs : FS) (cond : String) :
    ∀ (ps : List String) (st st2 : CollectSt),
      collectLoop fs cond ps st = .ok st2 → st2.cwd = st.cwd := by
  intro ps
  induction ps with
  | nil =>
    intro st st2 h
    simp only [collectLoop] at h
    cases h
    rfl
  | cons p rest ih =>
    intro st st2 h
    simp only [collectLoop] at h
    split at h
    · split at h
      · cases h
      · have hh := ih _ _ h
        simpa using hh
    · split at h
      · have hh := ih _ _ h
        simpa using hh
      · have hh := ih _ _ h
        simpa using hh

/-- The naming-pass fold restores the working directory it started
with: every `pkgProcessMappingS` step returns the saved directory. -/
theorem mappingFold_cwd (fs : FS) (basepath : String) (mp : Bool) :
    ∀ (pkgs : List PackageJsonM) (t : Tables) (cwd : String),
      (pkgs.foldl (pkgProcessMappingS fs basepath mp) (t, cwd)).2 = cwd := by
  intro pkgs
  induction pkgs with
  | nil => intro t cwd; rfl
  | cons pkg rest ih =>
    intro t cwd
    have hstep : (pkgProcessMappingS fs basepath mp (t, cwd) pkg).2 = cwd := by
      unfold pkgProcessMappingS
      split
      · rfl
      · split
        · rfl
        · rfl
    rcases hfp : pkgProcessMappingS fs basepath mp (t, cwd) pkg with ⟨t2, c2⟩
    have hc2 : c2 = cwd := by
      rw [hfp] at hstep
      exact hstep
    rw [List.foldl_cons, hfp, ih t2 c2]
    exact hc2

/-- The `types` `processExport` step only ever inserts entries whose
raw path passed the declaration-file check. -/
theorem processExportTypes_dts (fs : FS) (cwd : String)
    (st : EMState) (p ep : String) (g : Option String)
    (hst : ∀ fp e, (fp, e) ∈ st.1 → isDTSFileM fs cwd e.entryPath = true) :
    ∀ fp e, (fp, e) ∈ (processExportTypes fs cwd st p ep g).1 →
      isDTSFileM fs cwd e.entryPath = true := by
  intro fp e hmem
  simp only [processExportTypes] at hmem
  by_cases hd : isDTSFileM fs cwd p = true
  · rw [if_pos hd] at hmem
    by_cases hhas : (lookupAssoc st.1 (pathResolveCwd cwd p)).isSome = true
    · rw [if_pos hhas] at hmem
      exact hst fp e hmem
    · rw [if_neg hhas] at hmem
      rcases List.mem_append.mp hmem with h1 | h2
      · exact hst fp e h1
      · simp only [List.mem_singleton, Prod.mk.injEq] at h2
        rw [h2.2]
        exact hd
  · rw [if_neg hd] at hmem
    exact hst fp e hmem

/-- One loop step of the `types` export-map builder preserves the
declaration-file invariant of the map. -/
theorem emStepTypes_dts (fs : FS) (cwd : String) (pkg : PackageObj)
    (st : EMState) (ep : String) (conds : List String)
    (hst : ∀ fp e, (fp, e) ∈ st.1 → isDTSFileM fs cwd e.entryPath = true) :
    ∀ fp e,
      (fp, e) ∈ (emStepWith regexIsDTSFileTest (processExportTypes fs cwd)
        fs cwd pkg st ep conds).1 →
      isDTSFileM fs cwd e.entryPath = true := by
  intro fp e hmem
  simp only [emStepWith] at hmem
  split at hmem
  · exact hst fp e hmem
  · exact hst fp e hmem
  · rename_i entryPath rest heq
    split at hmem
    · split at hmem
      · refine foldl_inv
          (fun st2 : EMState => ∀ fp2 e2, (fp2, e2) ∈ st2.1 →
            isDTSFileM fs cwd e2.entryPath = true)
          _ ?_ (globSyncM fs cwd entryPath) st hst fp e hmem
        intro b a hb
        exact processExportTypes_dts fs cwd b a ep (some entryPath) hb
      · exact processExportTypes_dts fs cwd st entryPath ep none hst fp e hmem
    · exact hst fp e hmem

/-- Every entry of a `types` export map passed the declaration-file
check on its raw entry path. -/
theorem createExportMapTypes_dts (fs : FS) (cwd : String) (pkg : PackageObj) :
    ∀ fp e, (fp, e) ∈ (createExportMapTypes fs cwd pkg).1 →
      isDTSFileM fs cwd e.entryPath = true := by
  unfold createExportMapTypes
  refine foldl_inv
    (fun st : EMState => ∀ fp e, (fp, e) ∈ st.1 →
      isDTSFileM fs cwd e.entryPath = true)
    _ ?_ (forInKeys pkg.exports) ([], []) ?_
  · intro b a hb
    exact emStepTypes_dts fs cwd pkg b a ["types"] hb
  · intro fp e hmem
    simp at hmem

/-- C1: for every non-wildcard export entry processed by the naming
pass, the recorded display name is the path join of the package name
and the declared sub-path key; a declared `.` sub-path yields the
package name itself and a declared `./sub` sub-path yields the package
name followed by `/sub`. -/
theorem c1_display_join (fs : FS) (mp : Bool) (pkg : PackageJsonM)
    (fp : String) (e : ExportEntry)
    (hmem : (fp, e) ∈ pkg.exportMap.getD [])
    (hng : ¬ (isGlobM e.exportPath = true ∧ e.globEntryPath.isSome = true)) :
    (⟨fp, pathJoin pkg.obj.name e.exportPath,
      readmeOf fs mp pkg (pathJoin pkg.obj.name e.exportPath) e⟩ : MappingCall) ∈
        mappingCalls fs mp pkg ∧
    (cleanPath pkg.obj.name → pathJoin pkg.obj.name "." = pkg.obj.name) ∧
    (∀ sub : String, cleanPath pkg.obj.name → cleanPath sub →
      pathJoin pkg.obj.name ("./" ++ sub) = pkg.obj.name ++ "/" ++ sub) := by
  refine ⟨?_, fun h => pathJoin_dot h, fun sub hn hs => pathJoin_dotSlash hn hs⟩
  have hr : resolvedNameOf pkg.obj.name e =
      some (pathJoin pkg.obj.name e.exportPath) := by
    unfold resolvedNameOf
    cases hg : e.globEntryPath with
    | none => rfl
    | some gep =>
      have hng2 : ¬ isGlobM e.exportPath = true := by
        intro hgl
        exact hng ⟨hgl, by rw [hg]; rfl⟩
      simp only [if_neg hng2]
  unfold mappingCalls
  refine List.mem_filterMap.mpr ⟨(fp, e), hmem, ?_⟩
  rw [hr]
  rfl

/-- C1 witness: the root export of the two-export example package is
recorded with the bare package name and the join equations hold at
`rootpkg` and `sub`. -/
theorem c1_display_join_witness :
    (⟨"/pkg1/src/index.d.ts", pathJoin "rootpkg" ".",
      readmeOf fsC1 false pjC1 (pathJoin "rootpkg" ".")
        ⟨"./src/index.d.ts", ".", none⟩⟩ : MappingCall) ∈
      mappingCalls fsC1 false pjC1 ∧
    pathJoin "rootpkg" "." = "rootpkg" ∧
    pathJoin "rootpkg" ("./" ++ "sub") = "rootpkg" ++ "/" ++ "sub" := by
  have h := c1_display_join fsC1 false pjC1 "/pkg1/src/index.d.ts"
    ⟨"./src/index.d.ts", ".", none⟩ (by decide) (by decide)
  exact ⟨h.1, h.2.1 (by decide), h.2.2 "sub" (by decide) (by decide)⟩

/-- C2 counterexample: deriving the wildcard display name the way the
claim words it — matching the built regular expression against the
unexpanded target — captures the literal `*` and yields
`mypkg/features/*`, while the code, which matches against the stored
concrete expanded entry path, yields `mypkg/features/a`; the claim's
asserted mechanism therefore contradicts its own asserted outcome on
the claim's example. -/
theorem c2_spec_mechanism_counterexample :
    (createExportMapTypes fsC2 "/pkg" pkgC2).1 =
      [("/pkg/src/features/a.d.ts", entryC2a),
       ("/pkg/src/features/b.d.ts",
         ⟨"src/features/b.d.ts", "./features/*", some "./src/features/*.d.ts"⟩)] ∧
    specResolvedNameOf "mypkg" entryC2a = some "mypkg/features/*" ∧
    resolvedNameOf "mypkg" entryC2a = some "mypkg/features/a" ∧
    specResolvedNameOf "mypkg" entryC2a ≠ resolvedNameOf "mypkg" entryC2a := by
  refine ⟨rfl, rfl, rfl, by decide⟩

/-- C2 amended: wildcard resolution produces one entry per concrete
matching declaration file, keeping the declared sub-path key as
`exportPath` and the unexpanded target as `globEntryPath`; the naming
pass matches the built regular expression against the stored concrete
expanded entry path and substitutes the capture, yielding
`mypkg/features/a` and `mypkg/features/b`. -/
theorem c2_wildcard_amended :
    (createExportMapTypes fsC2 "/pkg" pkgC2).1 =
      [("/pkg/src/features/a.d.ts", entryC2a),
       ("/pkg/src/features/b.d.ts",
         ⟨"src/features/b.d.ts", "./features/*", some "./src/features/*.d.ts"⟩)] ∧
    (mappingCalls fsC2 false pjC2).map (fun c => c.resolvedPackageName) =
      ["mypkg/features/a", "mypkg/features/b"] ∧
    outC2.tables.dmtModuleNames =
      [("a", "mypkg/features/a"), ("b", "mypkg/features/b")] := by
  refine ⟨rfl, rfl, rfl⟩

/-- C4: evaluation of both duplicate-handling implementations at a
package whose two sub-path keys resolve to the same file under the
`types` condition.  The live `ExportMapSupport` builder keeps the first
resolution (`exportPath` stays `.`), while the older `ExportMap.js`
`processExportsTypes` — whose duplicate check reads
`if (exportMap.has(filepath)) \x7b false; \x7d` instead of returning —
lets the later duplicate overwrite the stored entry data
(`exportPath` becomes `./alt`). -/
theorem c4_dedup_eval :
    (createExportMapTypes fsC4 "/pkg4" pkgC4).1 =
      [("/pkg4/index.d.ts", ⟨"./index.d.ts", ".", none⟩)] ∧
    (createExportMapTypesEM fsC4 "/pkg4" pkgC4).1 =
      [("/pkg4/index.d.ts", ⟨"./index.d.ts", "./alt", none⟩)] ∧
    ("./alt" : String) ≠ "." := by
  refine ⟨rfl, rfl, by decide⟩

/-- C8: evaluation of the string-exports package under the `default`
condition.  The constructor gate does build an export map for a string
`exports` field exactly when the condition is `default`, but the
`for...in` loop then iterates the character indices of the string and
every resolution fails, so the map is empty and no entry point is
produced — not one entry with `exportPath` equal to `exports`. -/
theorem c8_string_exports_eval :
    forInKeys pkgC8.exports =
      ["0", "1", "2", "3", "4", "5", "6", "7", "8", "9"] ∧
    (mkPackageJson fsC8 pkgC8 "/pkg8/package.json" "default").exportMap = some [] ∧
    (mkPackageJson fsC8 pkgC8 "/pkg8/package.json" "default").entryPoints = [] ∧
    (mkPackageJson fsC8 pkgC8 "/pkg8/package.json" "import").exportMap = none ∧
    isFileM fsC8 "/pkg8" "./index.js" = true := by
  refine ⟨rfl, rfl, rfl, rfl, rfl⟩

/-- C6 counterexample: under the `types` condition a root export
pointing at an existing `.js` file is resolved by the exports resolver,
then discarded by the silent `regexIsDTSFile` prefilter — the export
map is empty AND the warning log is empty, contradicting the claim
that a warning is logged for the discarded candidate. -/
theorem c6_silent_discard_counterexample :
    resolveExportsM pkgC6 "." ["types"] = some ["./index.js"] ∧
    regexIsDTSFileTest "./index.js" = false ∧
    isFileM fsC6 "/pkg6" "./index.js" = true ∧
    createExportMapTypes fsC6 "/pkg6" pkgC6 = ([], []) := by
  exact ⟨rfl, rfl, rfl, rfl⟩

/-- C6 amended: under the `types` condition every stored entry passed
the declaration-file check (non-declaration candidates are always
discarded), but a resolver-level candidate failing the
declaration-extension prefilter — such as a `.js` target — is discarded
silently, with no warning; the warning is reserved for candidates that
pass the prefilter but fail `isDTSFile`.  The same `.js` file is
accepted under the `import` condition. -/
theorem c6_types_filter_amended :
    (∀ (fs : FS) (cwd : String) (pkg : PackageObj) (fp : String) (e : ExportEntry),
        (fp, e) ∈ (createExportMapTypes fs cwd pkg).1 →
        isDTSFileM fs cwd e.entryPath = true) ∧
    resolveExportsM pkgC6 "." ["types"] = some ["./index.js"] ∧
    createExportMapTypes fsC6 "/pkg6" pkgC6 = ([], []) ∧
    createExportMapCondition fsC6 "/pkg6" "import" pkgC6 =
      ([("/pkg6/index.js", ⟨"./index.js", ".", none⟩)], []) := by
  refine ⟨?_, rfl, rfl, rfl⟩
  intro fs cwd pkg fp e hmem
  exact createExportMapTypes_dts fs cwd pkg fp e hmem

/-- C6 witness: the declaration-file invariant applied to the first
entry of the wildcard example map. -/
theorem c6_types_filter_amended_witness :
    isDTSFileM fsC2 "/pkg" entryC2a.entryPath = true :=
  c6_types_filter_amended.1 fsC2 "/pkg" pkgC2 "/pkg/src/features/a.d.ts" entryC2a
    (by decide)

/-- C3: on every successful run, the basepath handed to the naming
pass equals the common path of the complete cross-package entry-point
set — computed once, after all inputs are resolved — and the tables are
the fold of the per-package naming pass over all packages with that
single basepath; on the two-package example the common basepath is the
shared directory `/repo`, not either package directory. -/
theorem c3_basepath_global (fs : FS) (ps : List String) (cond cwd : String) :
    (∀ (out : ProcOut) (s : String),
        processPathS fs ps cond cwd = (.ok out, s) →
        out.basepath = commonPathM out.entryPoints ∧
        out.tables =
          (out.allPackages.foldl
            (pkgProcessMappingS fs out.basepath out.multiplePackages)
            (⟨[], []⟩, s)).1) ∧
    commonPathM ["/repo/pkgA/src/index.d.ts", "/repo/pkgB/src/index.d.ts"] =
      "/repo" := by
  constructor
  · intro out s h
    unfold processPathS at h
    cases hc : collectLoop fs cond ps ⟨[], [], cwd⟩ with
    | error es =>
      rw [hc] at h
      simp at h
    | ok st =>
      rw [hc] at h
      dsimp only at h
      by_cases hl : st.entries.length = 0
      · rw [if_pos hl] at h
        simp at h
      · rw [if_neg hl] at h
        simp only [Prod.mk.injEq, Except.ok.injEq] at h
        obtain ⟨hout, hs⟩ := h
        subst hout
        have hcwd : s = st.cwd := by
          rw [← hs, mappingFold_cwd]
        constructor
        · rfl
        · rw [hcwd]
  · rfl

/-- C3 witness: the two-package example run has its basepath equal to
the common path of its entry points and its tables produced by the fold
over both packages with that basepath. -/
theorem c3_basepath_global_witness :
    outC3.basepath = commonPathM outC3.entryPoints ∧
    outC3.tables =
      (outC3.allPackages.foldl
        (pkgProcessMappingS fsC3 outC3.basepath outC3.multiplePackages)
        (⟨[], []⟩, "/work")).1 :=
  (c3_basepath_global fsC3 ["/repo/pkgA", "/repo/pkgB"] "types" "/work").1
    outC3 "/work" rfl

/-- C5: for every export entry the naming pass processes, the README
association is present exactly under the claimed conditions: a
default/root export (display name equal to the package name) gets the
package-root README exactly when multiple packages are processed and
that file exists; a sub-path export gets the README next to the
resolved entry file exactly when that file exists and differs from the
package-root README.  The single-package root-export example yields an
empty README table. -/
theorem c5_readme_assoc (fs : FS) (mp : Bool) (pkg : PackageJsonM)
    (rn : String) (e : ExportEntry) :
    (rn = pkg.obj.name →
      ((readmeOf fs mp pkg rn e).isSome = true ↔
        (mp = true ∧
          isFileM fs pkg.dirpath
            (pathResolveCwd pkg.dirpath (pkg.dirpath ++ "/README.md")) = true))) ∧
    (rn ≠ pkg.obj.name →
      ((readmeOf fs mp pkg rn e).isSome = true ↔
        (pathResolveCwd pkg.dirpath (pathDirname e.entryPath ++ "/README.md") ≠
            pathResolveCwd pkg.dirpath (pkg.dirpath ++ "/README.md") ∧
          isFileM fs pkg.dirpath
            (pathResolveCwd pkg.dirpath
              (pathDirname e.entryPath ++ "/README.md")) = true))) ∧
    outC5.tables.dmtModuleReadme = [] := by
  refine ⟨?_, ?_, rfl⟩
  · intro hrn
    unfold readmeOf
    rw [if_pos hrn]
    split
    · rename_i hcond
      simp only [Bool.and_eq_true] at hcond
      simp [hcond]
    · rename_i hcond
      simp only [Bool.and_eq_true] at hcond
      simpa using hcond
  · intro hrn
    unfold readmeOf
    rw [if_neg hrn]
    dsimp only
    split
    · rename_i hcond
      simp [hcond]
    · rename_i hcond
      simpa using hcond

/-- C5 witness: the root-export association of the single-package
example is absent because only one package is processed. -/
theorem c5_readme_assoc_witness :
    (readmeOf fsC5 false pjC5 "solo" ⟨"./src/index.d.ts", ".", none⟩).isSome = true ↔
      (false = true ∧
        isFileM fsC5 pjC5.dirpath
          (pathResolveCwd pjC5.dirpath (pjC5.dirpath ++ "/README.md")) = true) :=
  (c5_readme_assoc fsC5 false pjC5 "solo" ⟨"./src/index.d.ts", ".", none⟩).1 rfl

/-- C7: when the input loop completes with an empty entry-point set,
`processPath` aborts with the no-entry-points error before the naming
pass, and `generateDocs` logs it and never invokes the external
generator — the invocation never completes as an empty successful
result. -/
theorem c7_empty_fatal (fs : FS) (ps : List String) (cond cwd : String)
    (st : CollectSt)
    (hc : collectLoop fs cond ps ⟨[], [], cwd⟩ = .ok st)
    (he : st.entries = []) :
    (processPathS fs ps cond cwd).1 =
      .error "No entry points found to load for documentation generation." ∧
    (generateDocsS fs ps cond cwd).1.generated = false ∧
    (generateDocsS fs ps cond cwd).1.output = none := by
  have hp : (processPathS fs ps cond cwd).1 =
      .error "No entry points found to load for documentation generation." := by
    unfold processPathS
    rw [hc]
    simp [he]
  refine ⟨hp, ?_, ?_⟩
  · simp only [generateDocsS]
    rw [hp]
  · simp only [generateDocsS]
    rw [hp]

/-- C7 witness: a package declaring an empty exports object and no
legacy fields, processed alone, aborts with the no-entry-points error
and the generator is not invoked. -/
theorem c7_empty_fatal_witness :
    (processPathS fsC7 ["/pkg7"] "types" "/work").1 =
      .error "No entry points found to load for documentation generation." ∧
    (generateDocsS fsC7 ["/pkg7"] "types" "/work").1.generated = false ∧
    (generateDocsS fsC7 ["/pkg7"] "types" "/work").1.output = none :=
  c7_empty_fatal fsC7 ["/pkg7"] "types" "/work" stC7 rfl rfl

/-- C9: the per-input loop and the per-package naming pass restore the
saved working directory on success, and one full `generateDocs`
invocation always ends with the working directory it started with, on
both success and error outcomes. -/
theorem c9_cwd_restored (fs : FS) (ps : List String) (cond cwd0 : String) :
    (∀ (out : ProcOut) (s : String),
        processPathS fs ps cond cwd0 = (.ok out, s) → s = cwd0) ∧
    (generateDocsS fs ps cond cwd0).2 = cwd0 := by
  constructor
  · intro out s h
    unfold processPathS at h
    cases hc : collectLoop fs cond ps ⟨[], [], cwd0⟩ with
    | error es =>
      rw [hc] at h
      simp at h
    | ok st =>
      rw [hc] at h
      dsimp only at h
      by_cases hl : st.entries.length = 0
      · rw [if_pos hl] at h
        simp at h
      · rw [if_neg hl] at h
        simp only [Prod.mk.injEq, Except.ok.injEq] at h
        obtain ⟨_, hs⟩ := h
        rw [← hs, mappingFold_cwd]
        have := collectLoop_ok_cwd fs cond ps ⟨[], [], cwd0⟩ st hc
        simpa using this
  · simp only [generateDocsS]
    split <;> rfl

/-- C9 witness: the two-package example run restores the initial
working directory, both inside path processing and over the whole
invocation. -/
theorem c9_cwd_restored_witness :
    (processPathS fsC3 ["/repo/pkgA", "/repo/pkgB"] "types" "/work").2 = "/work" ∧
    (generateDocsS fsC3 ["/repo/pkgA", "/repo/pkgB"] "types" "/work").2 = "/work" :=
  ⟨(c9_cwd_restored fsC3 ["/repo/pkgA", "/repo/pkgB"] "types" "/work").1 outC3
      (processPathS fsC3 ["/repo/pkgA", "/repo/pkgB"] "types" "/work").2 rfl,
   (c9_cwd_restored fsC3 ["/repo/pkgA", "/repo/pkgB"] "types" "/work").2⟩

/-- C10: after successful path processing the all-declarations flag is
true exactly when every resolved entry point ends in `.d.ts`, `.d.mts`
or `.d.cts`; the mixed example containing a bare plain `.ts` input has
the flag false. -/
theorem c10_dts_flag (fs : FS) (ps : List String) (cond cwd : String) :
    (∀ (out : ProcOut) (s : String),
        processPathS fs ps cond cwd = (.ok out, s) →
        (out.entryPointsDTS = true ↔
          ∀ p ∈ out.entryPoints,
            (strEndsWith p ".d.ts" || strEndsWith p ".d.mts" ||
              strEndsWith p ".d.cts") = true)) ∧
    outC10.entryPointsDTS = false ∧
    "/mix/extra.ts" ∈ outC10.entryPoints := by
  refine ⟨?_, rfl, by decide⟩
  intro out s h
  unfold processPathS at h
  cases hc : collectLoop fs cond ps ⟨[], [], cwd⟩ with
  | error es =>
    rw [hc] at h
    simp at h
  | ok st =>
    rw [hc] at h
    dsimp only at h
    by_cases hl : st.entries.length = 0
    · rw [if_pos hl] at h
      simp at h
    · rw [if_neg hl] at h
      simp only [Prod.mk.injEq, Except.ok.injEq] at h
      obtain ⟨hout, _⟩ := h
      subst hout
      show st.entries.all regexIsDTSFileTest = true ↔ _
      rw [List.all_eq_true]
      unfold regexIsDTSFileTest
      exact Iff.rfl

/-- C10 witness: applied to the mixed example, the flag is false
because the bare `.ts` entry point fails every declaration suffix. -/
theorem c10_dts_flag_witness : outC10.entryPointsDTS = false := by
  have h := (c10_dts_flag fsC10 ["/mix/pkgA", "/mix/extra.ts"] "types" "/work").1
    outC10 (processPathS fsC10 ["/mix/pkgA", "/mix/extra.ts"] "types" "/work").2 rfl
  by_contra hn
  have ht : outC10.entryPointsDTS = true := by
    cases hb : outC10.entryPointsDTS
    · exact absurd hb hn
    · rfl
  have hall := h.mp ht
  have hx := hall "/mix/extra.ts" (by decide)
  exact absurd hx (by decide)
